import Mathlib

/-!
Shallow embedding of the duomic driver core
(src/Driver/duomicDriver/Driver.cpp): the shared ring-buffer reader,
the per-endpoint pull logic `OnReadClientInput`, the sample conversion
`ConvertToSInt16`, the endpoint registry, the IPC command handler
`HandleCommand`, and the config reader `ReadConfig`.

Machine integers (`uint32_t`) are modelled as `Nat` with explicit
`% 2^32` where the C++ arithmetic wraps; `float` samples are modelled
as exact rationals (the conversion performs only comparisons against
1.0 and -1.0, one scaling multiplication and a truncating cast, all of
which behave identically on the rational model for the properties at
stake); the fallible `std::stoi` is modelled with `Option`/`Except`.
-/

namespace Duomic

/-- 2^32, the modulus of `uint32_t` arithmetic. -/
def U32 : Nat := 4294967296

/-- `constexpr size_t MAX_CHANNELS = 8`. -/
def MAX_CHANNELS : Nat := 8

/-- `constexpr size_t RING_BUFFER_FRAMES = 8192`. -/
def RING_BUFFER_FRAMES : Nat := 8192

/-- `constexpr uint32_t TARGET_LATENCY = 1024` (local to OnReadClientInput). -/
def TARGET_LATENCY : Nat := 1024

/-- `uint32_t` subtraction `a - b` (wraps modulo 2^32). -/
def sub32 (a b : Nat) : Nat := (a + U32 - b) % U32

/-- The mapped shared-memory segment as seen through `SharedAudioBuffer`:
header word 0 is the write cursor, word 1 the channel count, word 3 the
active flag; the interleaved float samples follow the 16-byte header. -/
structure Shm where
  writePos : Nat
  channelCount : Nat
  activeFlag : Nat
  samples : Nat → ℚ

/-- `SharedAudioBuffer::isActive`: false when unmapped, else header word 3 == 1. -/
def isActive : Option Shm → Bool
  | none => false
  | some s => s.activeFlag == 1

/-- `SharedAudioBuffer::getChannelCount`: default 2 when unmapped. -/
def getChannelCount : Option Shm → Nat
  | none => 2
  | some s => s.channelCount

/-- `SharedAudioBuffer::getWritePos`: default 0 when unmapped. -/
def getWritePos : Option Shm → Nat
  | none => 0
  | some s => s.writePos

/-- `SharedAudioBuffer::getSamples`: null when unmapped. -/
def getSamples : Option Shm → Option (Nat → ℚ)
  | none => none
  | some s => some s.samples

/-- Truncation toward zero, the effect of `static_cast<SInt16>` on a float
value that is in range. -/
def truncQ (q : ℚ) : Int := if 0 ≤ q then ⌊q⌋ else ⌈q⌉

/-- `ConvertToSInt16`: clamp to [-1, 1], scale by 32767, truncate. -/
def convertToSInt16 (sample : ℚ) : Int :=
  if 1 ≤ sample then 32767
  else if sample ≤ -1 then -32768
  else truncQ (sample * 32767)

/-- Lines 173-175: seed the read cursor at `writePos - TARGET_LATENCY` when it
is still at its uninitialized sentinel 0 and enough history exists. -/
def seedReadPos (writePos readPos : Nat) : Nat :=
  if readPos = 0 ∧ TARGET_LATENCY < writePos then writePos - TARGET_LATENCY
  else readPos

/-- Lines 173-182 of `OnReadClientInput`: sentinel seeding followed by the
overrun reset; returns the adjusted read cursor and the `available` count
the rest of the call uses. -/
def adjustReadPos (writePos readPos : Nat) : Nat × Nat :=
  let rp := seedReadPos writePos readPos
  let available := sub32 writePos rp
  if RING_BUFFER_FRAMES - 512 < available then
    (sub32 writePos TARGET_LATENCY, TARGET_LATENCY)
  else (rp, available)

/-- The `(int)` to `uint32_t` conversion applied to `channelIndex_` when it
enters the index arithmetic of the copy loop. -/
def chanIdxU32 (ch : Int) : Nat := (ch % (U32 : Int)).toNat

/-- Lines 192-194, the body of the copy loop: sample `i` frames past the read
cursor, taken from this puller's channel of the interleaved array and
converted to SInt16. All index arithmetic is `uint32_t`. -/
def readSample (shmSamples : Nat → ℚ) (inputChannels : Nat) (ch : Int)
    (rp i : Nat) : Int :=
  convertToSInt16 (shmSamples
    ((((rp + i) % U32 % RING_BUFFER_FRAMES) * inputChannels + chanIdxU32 ch) % U32))

/-- `DuomicIOHandler::OnReadClientInput` as a function from the observed
shared-buffer state, the handler's channel index, the entry value of the
member `readPos_` and the byte count, to the samples written into the host
buffer together with the exit value of `readPos_`.  `ChannelCount = 1`, so
`numSamples = bytesCount / sizeof(SInt16) / 1`. -/
def onReadClientInput (buf : Option Shm) (channelIndex : Int) (readPos : Nat)
    (bytesCount : Nat) : List Int × Nat :=
  let numSamples := bytesCount / 2 / 1
  if isActive buf = false then (List.replicate numSamples 0, readPos)
  else
    match getSamples buf with
    | none => (List.replicate numSamples 0, readPos)
    | some shmSamples =>
      let writePos := getWritePos buf
      let inputChannels := getChannelCount buf
      if (inputChannels : Int) ≤ channelIndex then
        (List.replicate numSamples 0, readPos)
      else
        let a := adjustReadPos writePos readPos
        if writePos ≤ a.1 ∨ a.2 < numSamples then
          (List.replicate numSamples 0, a.1)
        else
          let samplesToRead := min numSamples (sub32 writePos a.1)
          ((List.range samplesToRead).map
              (readSample shmSamples inputChannels channelIndex a.1)
            ++ List.replicate (numSamples - samplesToRead) 0,
           (a.1 + samplesToRead) % U32)

/-- One registry entry (the `device`/`handler` handles carry no state the
claims mention beyond the bound channel). -/
structure DeviceInfo where
  name : String
  channel : Int
deriving DecidableEq, Repr

/-- `AddVirtualDevice`: fail on duplicate name, else append. -/
def addVirtualDevice (devices : List DeviceInfo) (name : String)
    (channel : Int) : Bool × List DeviceInfo :=
  if devices.any (fun d => d.name = name) then (false, devices)
  else (true, devices ++ [⟨name, channel⟩])

/-- `RemoveVirtualDevice`: erase the first entry with the given name. -/
def removeVirtualDevice (devices : List DeviceInfo) (name : String) :
    Bool × List DeviceInfo :=
  if devices.any (fun d => d.name = name) then
    (true, devices.eraseP (fun d => decide (d.name = name)))
  else (false, devices)

/-- `ListDevices`: one `name:channel\n` line per entry, in registry order. -/
def listDevices : List DeviceInfo → String
  | [] => ""
  | d :: rest => d.name ++ ":" ++ toString d.channel ++ "\n" ++ listDevices rest

/-- The whitespace class of the default-constructed `std::istream` locale,
used by `operator>>` and `std::ws`. -/
def isStreamSpace (c : Char) : Bool :=
  c = ' ' ∨ c = '\t' ∨ c = '\n' ∨ c = '\x0b' ∨ c = '\x0c' ∨ c = '\r'

/-- `iss >> command`: skip whitespace, extract the maximal non-whitespace run. -/
def firstToken (s : String) : String :=
  ((s.toList.dropWhile isStreamSpace).takeWhile fun c => !isStreamSpace c).asString

/-- The stream contents remaining after `iss >> command`. -/
def afterFirstToken (s : String) : List Char :=
  (s.toList.dropWhile isStreamSpace).dropWhile fun c => !isStreamSpace c

/-- Value of a digit run (the accumulation `operator>>` performs). -/
def digitsVal (cs : List Char) : Nat :=
  cs.foldl (fun a c => a * 10 + (c.toNat - 48)) 0

/-- `iss >> channel` on an `int`: skip whitespace, optional sign, digits;
a failed extraction stores 0 (C++11 semantics). -/
def extractInt (cs : List Char) : Int :=
  let cs := cs.dropWhile isStreamSpace
  match cs with
  | '-' :: rest => -(digitsVal (rest.takeWhile Char.isDigit) : Int)
  | '+' :: rest => (digitsVal (rest.takeWhile Char.isDigit) : Int)
  | _ => (digitsVal (cs.takeWhile Char.isDigit) : Int)

/-- `HandleCommand` acting on the command text and the registry `g_devices`;
returns the response string and the registry afterwards. -/
def handleCommand (cmd : String) (devices : List DeviceInfo) :
    String × List DeviceInfo :=
  let command := firstToken cmd
  let rest := afterFirstToken cmd
  if command = "ADD" then
    let afterWs := rest.dropWhile isStreamSpace
    let name := (afterWs.takeWhile fun c => c ≠ ':').asString
    let channel := extractInt ((afterWs.dropWhile fun c => c ≠ ':').drop 1)
    if name = "" then ("ERROR:Invalid name\n", devices)
    else if channel < 0 ∨ (MAX_CHANNELS : Int) ≤ channel then
      ("ERROR:Invalid channel\n", devices)
    else
      let r := addVirtualDevice devices name channel
      if r.1 then ("OK:Device added\n", r.2)
      else ("ERROR:Device already exists\n", r.2)
  else if command = "REMOVE" then
    let name := ((rest.dropWhile isStreamSpace).takeWhile fun c => c ≠ '\n').asString
    if name = "" then ("ERROR:Invalid name\n", devices)
    else
      let r := removeVirtualDevice devices name
      if r.1 then ("OK:Device removed\n", r.2)
      else ("ERROR:Device not found\n", r.2)
  else if command = "LIST" then ("OK\n" ++ listDevices devices, devices)
  else if command = "PING" then ("PONG\n", devices)
  else ("ERROR:Unknown command\n", devices)

/-- `std::stoi`: skip whitespace, optional sign, at least one digit required;
`none` models the `std::invalid_argument` throw on no conversion. -/
def stoiOpt (s : String) : Option Int :=
  let cs := s.toList.dropWhile isStreamSpace
  let digitsOf : List Char → Option Int := fun ds =>
    let digs := ds.takeWhile Char.isDigit
    if digs = [] then none else some (digitsVal digs : Int)
  match cs with
  | '-' :: rest => (digitsOf rest).map (fun v => -v)
  | '+' :: rest => digitsOf rest
  | _ => digitsOf cs

/-- The built-in default seeded when the config is absent or yields nothing. -/
def defaultConfig : List (String × Int) := [("duomic L", 0), ("duomic R", 1)]

/-- The line loop of `ReadConfig`; `Except.error` models the uncaught
exception `std::stoi` raises on a line whose channel text is not a number. -/
def parseConfigLines : List String → Except Unit (List (String × Int))
  | [] => .ok []
  | line :: rest =>
    if line = "" ∨ line.toList.head? = some '#' then parseConfigLines rest
    else
      let cs := line.toList
      if cs.contains ':' then
        let name := (cs.takeWhile fun c => c ≠ ':').asString
        match stoiOpt ((cs.dropWhile fun c => c ≠ ':').drop 1).asString with
        | none => .error ()
        | some channel =>
          if 0 ≤ channel ∧ channel < (MAX_CHANNELS : Int) then
            (parseConfigLines rest).map (fun ds => (name, channel) :: ds)
          else parseConfigLines rest
      else parseConfigLines rest

/-- `ReadConfig`: `none` models a file that cannot be opened; otherwise the
file is its list of lines. -/
def readConfig (file : Option (List String)) :
    Except Unit (List (String × Int)) :=
  match file with
  | none => .ok defaultConfig
  | some lines =>
    match parseConfigLines lines with
    | .error e => .error e
    | .ok devs => .ok (if devs = [] then defaultConfig else devs)

/-! ## Helper lemmas -/

lemma truncQ_mono {a b : ℚ} (h : a ≤ b) : truncQ a ≤ truncQ b := by
  unfold truncQ
  split_ifs with h1 h2 h2
  · exact Int.floor_le_floor h
  · linarith
  · exact le_trans (Int.ceil_le.mpr (by exact_mod_cast not_le.mp h1 |>.le))
      (Int.floor_nonneg.mpr h2)
  · exact Int.ceil_le_ceil h

lemma truncQ_le {n : ℤ} {q : ℚ} (h : q ≤ (n : ℚ)) : truncQ q ≤ n := by
  unfold truncQ
  split_ifs with h1
  · exact (Int.floor_le_floor h).trans_eq (Int.floor_intCast n)
  · exact Int.ceil_le.mpr h

lemma le_truncQ {n : ℤ} {q : ℚ} (h : (n : ℚ) ≤ q) : n ≤ truncQ q := by
  unfold truncQ
  split_ifs with h1
  · exact Int.le_floor.mpr h
  · exact_mod_cast Int.cast_le.mp (h.trans (Int.le_ceil q))

/-- Claim C5: the float-to-SInt16 sample conversion is monotonic
(non-decreasing in its input) and symmetric: every input at or above 1
maps to 32767, every input at or below -1 maps to -32768, and 0 maps
to 0. -/
theorem convertToSInt16_monotone_symmetric :
    (∀ x y : ℚ, x ≤ y → convertToSInt16 x ≤ convertToSInt16 y) ∧
    (∀ x : ℚ, 1 ≤ x → convertToSInt16 x = 32767) ∧
    (∀ x : ℚ, x ≤ -1 → convertToSInt16 x = -32768) ∧
    convertToSInt16 0 = 0 := by
  refine ⟨?_, ?_, ?_, ?_⟩
  · intro x y hxy
    by_cases hx1 : 1 ≤ x
    · have hy1 : 1 ≤ y := le_trans hx1 hxy
      simp [convertToSInt16, hx1, hy1]
    · by_cases hx2 : x ≤ -1
      · rw [show convertToSInt16 x = -32768 by simp [convertToSInt16, hx1, hx2]]
        unfold convertToSInt16
        split_ifs with hy1 hy2
        · norm_num
        · exact le_refl _
        · refine le_trans (by norm_num : (-32768 : ℤ) ≤ -32767) (le_truncQ ?_)
          push_cast
          nlinarith [not_le.mp hy2]
      · have hy2 : ¬y ≤ -1 := fun hy => hx2 (hxy.trans hy)
        by_cases hy1 : 1 ≤ y
        · simp only [convertToSInt16, if_neg hx1, if_neg hx2, if_pos hy1]
          exact truncQ_le (by push_cast; nlinarith [not_le.mp hx1])
        · simp only [convertToSInt16, if_neg hx1, if_neg hx2, if_neg hy1, if_neg hy2]
          exact truncQ_mono (by nlinarith)
  · intro x hx
    unfold convertToSInt16
    rw [if_pos hx]
  · intro x hx
    unfold convertToSInt16
    rw [if_neg (by linarith), if_pos hx]
  · unfold convertToSInt16 truncQ
    norm_num

/-- Witness for C5 at concrete inputs 0 ≤ 1/2, 2 and -3. -/
theorem convertToSInt16_monotone_symmetric_witness :
    convertToSInt16 0 ≤ convertToSInt16 (1 / 2) ∧
    convertToSInt16 2 = 32767 ∧
    convertToSInt16 (-3) = -32768 :=
  ⟨convertToSInt16_monotone_symmetric.1 0 (1 / 2) (by norm_num),
   convertToSInt16_monotone_symmetric.2.1 2 (by norm_num),
   convertToSInt16_monotone_symmetric.2.2.1 (-3) (by norm_num)⟩

/-- Claim C1: a fresh puller (read cursor at the sentinel 0) on channel 3,
reader active, segment reporting 4 channels and write cursor 2000, pulled
for 256 frames (512 bytes), seeds the cursor at 2000 - 1024 = 976, returns
the 256 converted samples of frames [976..1232) of channel 3 taken at slots
((976 + i) mod 8192) * 4 + 3, and leaves the cursor at 1232. -/
theorem firstPull_seeds_and_reads (f : Nat → ℚ) :
    onReadClientInput (some ⟨2000, 4, 1, f⟩) 3 0 512 =
      ((List.range 256).map
        (fun i => convertToSInt16 (f (((976 + i) % 8192) * 4 + 3))), 1232) := by
  have hadj : adjustReadPos 2000 0 = (976, 1024) := by decide
  simp only [onReadClientInput, isActive, getSamples, getWritePos, getChannelCount,
    hadj]
  norm_num
  have hmin : 256 ⊓ sub32 2000 976 = 256 := by decide
  rw [hmin]
  refine ⟨?_, by decide⟩
  simp only [Nat.sub_self, List.replicate_zero, List.append_nil]
  refine List.map_congr_left ?_
  intro i hi
  have hi' : i < 256 := List.mem_range.mp hi
  unfold readSample chanIdxU32
  refine congrArg convertToSInt16 (congrArg f ?_)
  unfold U32 RING_BUFFER_FRAMES
  norm_num
  omega

/-- Witness for C1 at the all-zero sample array. -/
theorem firstPull_seeds_and_reads_witness :
    onReadClientInput (some ⟨2000, 4, 1, fun _ => (0 : ℚ)⟩) 3 0 512 =
      ((List.range 256).map
        (fun i => convertToSInt16
          ((fun _ => (0 : ℚ)) (((976 + i) % 8192) * 4 + 3))), 1232) :=
  firstPull_seeds_and_reads (fun _ => 0)

lemma sub32_self (a : Nat) : sub32 a a = 0 := by
  unfold sub32 U32
  omega

lemma adjust_snd_eq (W rp : Nat) :
    (adjustReadPos W rp).2 = sub32 W (adjustReadPos W rp).1 := by
  simp only [adjustReadPos]
  split_ifs with h
  · show TARGET_LATENCY = sub32 W (sub32 W TARGET_LATENCY)
    unfold sub32 U32 TARGET_LATENCY
    omega
  · rfl

lemma adjust_fst_lt (W rp : Nat) (hW : W < U32) (hrp : rp < U32) :
    (adjustReadPos W rp).1 < U32 := by
  simp only [adjustReadPos, seedReadPos, sub32, U32, TARGET_LATENCY,
    RING_BUFFER_FRAMES] at *
  split_ifs <;> simp <;> omega

lemma adjust_drift (W rp : Nat) (hW : W < U32) (hrp : rp < U32)
    (hdrift : sub32 W rp < 2 ^ 31) :
    sub32 W (adjustReadPos W rp).1 < 2 ^ 31 := by
  simp only [adjustReadPos, seedReadPos, sub32, U32, TARGET_LATENCY,
    RING_BUFFER_FRAMES] at *
  split_ifs at * <;> simp_all <;> omega

lemma adjust_advance (W rp : Nat) (hW : W < U32) (hrp : rp < U32)
    (hdrift : sub32 W rp < 2 ^ 31) :
    sub32 (adjustReadPos W rp).1 rp < 2 ^ 31 := by
  simp only [adjustReadPos, seedReadPos, sub32, U32, TARGET_LATENCY,
    RING_BUFFER_FRAMES] at *
  split_ifs at * <;> simp_all <;> omega

/-- Claim C2 (amended): the overrun reset fires only when `available`,
computed after the first-pull seeding, STRICTLY exceeds
`RING_BUFFER_FRAMES - 512 = 7680`; it then snaps the cursor to
`writePos - TARGET_LATENCY` (mod 2^32) and hands `TARGET_LATENCY` to the
rest of the call as `available`. -/
theorem overrun_resets_cursor (W rp : Nat)
    (hover : RING_BUFFER_FRAMES - 512 < sub32 W (seedReadPos W rp)) :
    adjustReadPos W rp = (sub32 W TARGET_LATENCY, TARGET_LATENCY) := by
  unfold adjustReadPos
  rw [if_pos hover]

/-- Witness for C2 at `writePos = 9000`, `readPos = 100`
(`available = 8900 > 7680`). -/
theorem overrun_resets_cursor_witness :
    RING_BUFFER_FRAMES - 512 < sub32 9000 (seedReadPos 9000 100) ∧
    adjustReadPos 9000 100 = (sub32 9000 TARGET_LATENCY, TARGET_LATENCY) :=
  ⟨by decide, overrun_resets_cursor 9000 100 (by decide)⟩

/-- Counterexample to claim C2 as stated: at `writePos = 7780`,
`readPos = 100` the computed `available` is exactly
`RING_BUFFER_FRAMES - 512 = 7680`, yet the cursor is NOT reset to
`writePos - 1024 = 6756`: the pull proceeds with cursor 100. -/
theorem overrun_at_threshold_no_reset :
    sub32 7780 (seedReadPos 7780 100) = RING_BUFFER_FRAMES - 512 ∧
    adjustReadPos 7780 100 = (100, 7680) ∧
    (100, 7680) ≠ (sub32 7780 TARGET_LATENCY, TARGET_LATENCY) := by
  refine ⟨by decide, by decide, by decide⟩

/-- Claim C3 (amended): a pull with an inactive or disconnected reader, or a
channel index at or past the segment channel count, zero-fills the requested
block and leaves the cursor exactly unchanged; a pull that fails the
availability check (`writePos ≤ readPos` or `available < numSamples`)
zero-fills the requested block and advances the cursor by no read frames,
leaving it exactly at the value produced by the seeding / overrun-reset
adjustment earlier in the same call. -/
theorem silent_pull_no_read_advance :
    (∀ (buf : Option Shm) (ch : Int) (rp bytes : Nat), isActive buf = false →
      onReadClientInput buf ch rp bytes = (List.replicate (bytes / 2 / 1) 0, rp)) ∧
    (∀ (s : Shm) (ch : Int) (rp bytes : Nat), isActive (some s) = true →
      (s.channelCount : Int) ≤ ch →
      onReadClientInput (some s) ch rp bytes =
        (List.replicate (bytes / 2 / 1) 0, rp)) ∧
    (∀ (s : Shm) (ch : Int) (rp bytes : Nat), isActive (some s) = true →
      ch < (s.channelCount : Int) →
      (s.writePos ≤ (adjustReadPos s.writePos rp).1 ∨
        (adjustReadPos s.writePos rp).2 < bytes / 2 / 1) →
      onReadClientInput (some s) ch rp bytes =
        (List.replicate (bytes / 2 / 1) 0, (adjustReadPos s.writePos rp).1)) := by
  refine ⟨?_, ?_, ?_⟩
  · intro buf ch rp bytes hact
    unfold onReadClientInput
    rw [if_pos hact]
  · intro s ch rp bytes hact hch
    unfold onReadClientInput
    rw [if_neg (by simp [hact])]
    simp only [getSamples, getWritePos, getChannelCount]
    rw [if_pos hch]
  · intro s ch rp bytes hact hch hguard
    unfold onReadClientInput
    rw [if_neg (by simp [hact])]
    simp only [getSamples, getWritePos, getChannelCount]
    rw [if_neg (not_le.mpr hch), if_pos hguard]

/-- Witness for C3 (amended) in the underrun case: active 2-channel segment,
`writePos = 500`, entry cursor 300, request 512 frames with only 200
available. -/
theorem silent_pull_no_read_advance_witness :
    onReadClientInput (some ⟨500, 2, 1, fun _ => 0⟩) 1 300 1024 =
      (List.replicate (1024 / 2 / 1) 0, (adjustReadPos 500 300).1) :=
  silent_pull_no_read_advance.2.2 ⟨500, 2, 1, fun _ => 0⟩ 1 300 1024
    (by decide) (by decide) (by decide)

/-- Counterexample to claim C3 as stated: a first pull on an active
single-channel segment with `writePos = 2000` requesting 2048 frames
underruns (only 1024 available after seeding) and zero-fills, yet the
cursor does not stay at its entry value 0: the seeding step has moved it
to 976. -/
theorem silent_pull_cursor_moved :
    (onReadClientInput (some ⟨2000, 1, 1, fun _ => 0⟩) 0 0 4096).2 = 976 ∧
    (976 : Nat) ≠ 0 := by
  refine ⟨by decide, by decide⟩

lemma onRead_eq_silent (buf : Option Shm) (ch : Int) (rp bytes : Nat)
    (hact : isActive buf = false) :
    onReadClientInput buf ch rp bytes = (List.replicate (bytes / 2 / 1) 0, rp) := by
  unfold onReadClientInput
  rw [if_pos hact]

lemma onRead_eq_badchannel (s : Shm) (ch : Int) (rp bytes : Nat)
    (hact : isActive (some s) = true) (hch : (s.channelCount : Int) ≤ ch) :
    onReadClientInput (some s) ch rp bytes =
      (List.replicate (bytes / 2 / 1) 0, rp) := by
  unfold onReadClientInput
  rw [if_neg (by simp [hact])]
  simp only [getSamples, getWritePos, getChannelCount]
  rw [if_pos hch]

lemma onRead_eq_underrun (s : Shm) (ch : Int) (rp bytes : Nat)
    (hact : isActive (some s) = true) (hch : ch < (s.channelCount : Int))
    (hguard : s.writePos ≤ (adjustReadPos s.writePos rp).1 ∨
      (adjustReadPos s.writePos rp).2 < bytes / 2 / 1) :
    onReadClientInput (some s) ch rp bytes =
      (List.replicate (bytes / 2 / 1) 0, (adjustReadPos s.writePos rp).1) := by
  unfold onReadClientInput
  rw [if_neg (by simp [hact])]
  simp only [getSamples, getWritePos, getChannelCount]
  rw [if_neg (not_le.mpr hch), if_pos hguard]

lemma onRead_eq_success (s : Shm) (ch : Int) (rp bytes : Nat)
    (hact : isActive (some s) = true) (hch : ch < (s.channelCount : Int))
    (hguard : ¬(s.writePos ≤ (adjustReadPos s.writePos rp).1 ∨
      (adjustReadPos s.writePos rp).2 < bytes / 2 / 1)) :
    onReadClientInput (some s) ch rp bytes =
      ((List.range (min (bytes / 2 / 1)
          (sub32 s.writePos (adjustReadPos s.writePos rp).1))).map
          (readSample s.samples s.channelCount ch (adjustReadPos s.writePos rp).1)
        ++ List.replicate (bytes / 2 / 1 - min (bytes / 2 / 1)
            (sub32 s.writePos (adjustReadPos s.writePos rp).1)) 0,
       ((adjustReadPos s.writePos rp).1 + min (bytes / 2 / 1)
          (sub32 s.writePos (adjustReadPos s.writePos rp).1)) % U32) := by
  unfold onReadClientInput
  rw [if_neg (by simp [hact])]
  simp only [getSamples, getWritePos, getChannelCount]
  rw [if_neg (not_le.mpr hch), if_neg hguard]

/-- Claim C4: a single pull advances the cursor forward (mod 2^32, advance
below 2^31) and never past the write cursor observed during the pull (the
unsigned wraparound distance from cursor to write cursor stays below 2^31),
provided the entry state satisfies the drift bound the spec assumes; by
induction over a pull sequence this is the stated monotonicity invariant. -/
theorem cursor_monotone_bounded (buf : Option Shm) (ch : Int) (rp bytes : Nat)
    (hrp : rp < U32) (hW : getWritePos buf < U32)
    (hdrift : sub32 (getWritePos buf) rp < 2 ^ 31) :
    sub32 (onReadClientInput buf ch rp bytes).2 rp < 2 ^ 31 ∧
    sub32 (getWritePos buf) (onReadClientInput buf ch rp bytes).2 < 2 ^ 31 := by
  by_cases hact : isActive buf = false
  · rw [onRead_eq_silent buf ch rp bytes hact]
    exact ⟨by rw [sub32_self]; norm_num, hdrift⟩
  · have hact' : isActive buf = true := by
      revert hact; cases isActive buf <;> simp
    obtain ⟨s, rfl⟩ : ∃ s, buf = some s := by
      cases buf with
      | none => simp [isActive] at hact'
      | some s => exact ⟨s, rfl⟩
    simp only [getWritePos] at hW hdrift ⊢
    by_cases hch : (s.channelCount : Int) ≤ ch
    · rw [onRead_eq_badchannel s ch rp bytes hact' hch]
      exact ⟨by rw [sub32_self]; norm_num, hdrift⟩
    · have hch' : ch < (s.channelCount : Int) := not_le.mp hch
      by_cases hguard : s.writePos ≤ (adjustReadPos s.writePos rp).1 ∨
          (adjustReadPos s.writePos rp).2 < bytes / 2 / 1
      · rw [onRead_eq_underrun s ch rp bytes hact' hch' hguard]
        exact ⟨adjust_advance s.writePos rp hW hrp hdrift,
               adjust_drift s.writePos rp hW hrp hdrift⟩
      · rw [onRead_eq_success s ch rp bytes hact' hch' hguard]
        have ha1 := adjust_fst_lt s.writePos rp hW hrp
        have h3 := adjust_advance s.writePos rp hW hrp hdrift
        have h4 := adjust_drift s.writePos rp hW hrp hdrift
        push_neg at hguard
        have h1 : (adjustReadPos s.writePos rp).1 < s.writePos := hguard.1
        have hn : min (bytes / 2 / 1)
            (sub32 s.writePos (adjustReadPos s.writePos rp).1) ≤
            sub32 s.writePos (adjustReadPos s.writePos rp).1 := min_le_right _ _
        unfold sub32 U32 at h3 h4 hdrift hn ⊢
        omega

/-- Witness for C4: a fresh puller on the C1 scenario state. -/
theorem cursor_monotone_bounded_witness :
    sub32 (onReadClientInput (some ⟨2000, 4, 1, fun _ => 0⟩) 3 0 512).2 0 < 2 ^ 31 ∧
    sub32 (getWritePos (some ⟨2000, 4, 1, fun _ => 0⟩))
      (onReadClientInput (some ⟨2000, 4, 1, fun _ => 0⟩) 3 0 512).2 < 2 ^ 31 :=
  cursor_monotone_bounded (some ⟨2000, 4, 1, fun _ => 0⟩) 3 0 512
    (by decide) (by decide) (by decide)

/-- Claim C10: whenever the sample-copy loop is reached (reader active,
channel in range, availability check passed), `samplesToRead` equals the
requested `numSamples`, so the trailing zero-fill is empty and the returned
block consists solely of converted samples. -/
theorem copy_loop_full_request (s : Shm) (ch : Int) (rp bytes : Nat)
    (hact : isActive (some s) = true) (hch : ch < (s.channelCount : Int))
    (hguard : ¬(s.writePos ≤ (adjustReadPos s.writePos rp).1 ∨
      (adjustReadPos s.writePos rp).2 < bytes / 2 / 1)) :
    min (bytes / 2 / 1) (sub32 s.writePos (adjustReadPos s.writePos rp).1) =
      bytes / 2 / 1 ∧
    onReadClientInput (some s) ch rp bytes =
      ((List.range (bytes / 2 / 1)).map
         (readSample s.samples s.channelCount ch (adjustReadPos s.writePos rp).1),
       ((adjustReadPos s.writePos rp).1 + bytes / 2 / 1) % U32) := by
  push_neg at hguard
  have havail : bytes / 2 / 1 ≤ (adjustReadPos s.writePos rp).2 := hguard.2
  rw [adjust_snd_eq] at havail
  have hmin : min (bytes / 2 / 1)
      (sub32 s.writePos (adjustReadPos s.writePos rp).1) = bytes / 2 / 1 :=
    min_eq_left havail
  refine ⟨hmin, ?_⟩
  rw [onRead_eq_success s ch rp bytes hact hch
    (by push_neg; exact hguard), hmin]
  rw [Nat.sub_self, List.replicate_zero, List.append_nil]

/-- Witness for C10 on the C1 scenario state. -/
theorem copy_loop_full_request_witness :
    min (512 / 2 / 1) (sub32 2000 (adjustReadPos 2000 0).1) = 512 / 2 / 1 ∧
    onReadClientInput (some ⟨2000, 4, 1, fun _ => 0⟩) 3 0 512 =
      ((List.range (512 / 2 / 1)).map
         (readSample (fun _ => 0) 4 3 (adjustReadPos 2000 0).1),
       ((adjustReadPos 2000 0).1 + 512 / 2 / 1) % U32) :=
  copy_loop_full_request ⟨2000, 4, 1, fun _ => 0⟩ 3 0 512
    (by decide) (by decide) (by decide)

lemma listDevices_append (xs ys : List DeviceInfo) :
    listDevices (xs ++ ys) = listDevices xs ++ listDevices ys := by
  induction xs with
  | nil => simp [listDevices]
  | cons d rest ih =>
      simp only [List.cons_append, listDevices, List.append_eq, ih,
        String.append_assoc]

/-- Claim C6: adding an unregistered name with a channel index in
[0, MAX_CHANNELS) succeeds and appends the entry, and the listing — a pure
function of the registry — reports the new pair after all existing entries
(insertion order). -/
theorem add_fresh_then_list (devices : List DeviceInfo) (name : String)
    (channel : Int) (hfresh : ∀ d ∈ devices, d.name ≠ name)
    (hlo : 0 ≤ channel) (hhi : channel < (MAX_CHANNELS : Int)) :
    addVirtualDevice devices name channel = (true, devices ++ [⟨name, channel⟩]) ∧
    listDevices (devices ++ [⟨name, channel⟩]) =
      listDevices devices ++ (name ++ ":" ++ toString channel ++ "\n") := by
  constructor
  · unfold addVirtualDevice
    rw [if_neg]
    simp only [List.any_eq_true, decide_eq_true_eq]
    push_neg
    exact hfresh
  · rw [listDevices_append]
    simp [listDevices, String.append_assoc]

/-- Witness for C6: adding `b:2` to a registry holding `a:1`. -/
theorem add_fresh_then_list_witness :
    addVirtualDevice [⟨"a", 1⟩] "b" 2 = (true, [⟨"a", 1⟩] ++ [⟨"b", 2⟩]) ∧
    listDevices ([⟨"a", 1⟩] ++ [⟨"b", 2⟩]) =
      listDevices [⟨"a", 1⟩] ++ ("b" ++ ":" ++ toString (2 : Int) ++ "\n") :=
  add_fresh_then_list [⟨"a", 1⟩] "b" 2 (by decide) (by decide) (by decide)

/-- Claim C7: adding a name already present fails and leaves the registry
(and its order) untouched, and the `ADD` control command for such a name
answers exactly `ERROR:Device already exists\n`. -/
theorem duplicate_add_rejected :
    (∀ (devices : List DeviceInfo) (name : String) (channel : Int),
      (∃ d ∈ devices, d.name = name) →
      addVirtualDevice devices name channel = (false, devices)) ∧
    (∀ devices : List DeviceInfo, (∃ d ∈ devices, d.name = "studioMic") →
      handleCommand "ADD studioMic:3" devices =
        ("ERROR:Device already exists\n", devices)) := by
  have hadd : ∀ (devices : List DeviceInfo) (name : String) (channel : Int),
      (∃ d ∈ devices, d.name = name) →
      addVirtualDevice devices name channel = (false, devices) := by
    intro devices name channel hdup
    unfold addVirtualDevice
    rw [if_pos]
    simp only [List.any_eq_true, decide_eq_true_eq]
    exact hdup
  refine ⟨hadd, fun devices hdup => ?_⟩
  have hstep : handleCommand "ADD studioMic:3" devices =
      (if (addVirtualDevice devices "studioMic" 3).1 then
        ("OK:Device added\n", (addVirtualDevice devices "studioMic" 3).2)
       else
        ("ERROR:Device already exists\n",
         (addVirtualDevice devices "studioMic" 3).2)) := rfl
  rw [hstep, hadd devices "studioMic" 3 hdup]
  simp

/-- Witness for C7 on a one-entry registry already holding `studioMic`. -/
theorem duplicate_add_rejected_witness :
    addVirtualDevice [⟨"studioMic", 3⟩] "studioMic" 5 =
      (false, [⟨"studioMic", 3⟩]) ∧
    handleCommand "ADD studioMic:3" [⟨"studioMic", 3⟩] =
      ("ERROR:Device already exists\n", [⟨"studioMic", 3⟩]) :=
  ⟨duplicate_add_rejected.1 [⟨"studioMic", 3⟩] "studioMic" 5
     ⟨⟨"studioMic", 3⟩, by decide, rfl⟩,
   duplicate_add_rejected.2 [⟨"studioMic", 3⟩]
     ⟨⟨"studioMic", 3⟩, by decide, rfl⟩⟩

/-- Claim C8: `PING` answers exactly `PONG\n`; `ADD bad:99` (channel out of
[0, MAX_CHANNELS)) answers exactly `ERROR:Invalid channel\n` without touching
the registry; any command whose keyword is none of ADD/REMOVE/LIST/PING
answers `ERROR:Unknown command\n` (newline-terminated, like every response)
without touching the registry. -/
theorem command_responses :
    (∀ devices : List DeviceInfo,
      handleCommand "PING" devices = ("PONG\n", devices)) ∧
    (∀ devices : List DeviceInfo,
      handleCommand "ADD bad:99" devices = ("ERROR:Invalid channel\n", devices)) ∧
    (∀ (cmd : String) (devices : List DeviceInfo),
      firstToken cmd ≠ "ADD" → firstToken cmd ≠ "REMOVE" →
      firstToken cmd ≠ "LIST" → firstToken cmd ≠ "PING" →
      handleCommand cmd devices = ("ERROR:Unknown command\n", devices)) := by
  refine ⟨fun devices => rfl, fun devices => rfl, ?_⟩
  intro cmd devices h1 h2 h3 h4
  unfold handleCommand
  rw [if_neg h1, if_neg h2, if_neg h3, if_neg h4]

/-- Witness for C8's universally quantified unknown-command case. -/
theorem command_responses_witness :
    handleCommand "NOPE" [] = ("ERROR:Unknown command\n", []) :=
  command_responses.2.2 "NOPE" [] (by decide) (by decide) (by decide) (by decide)

/-- Claim C9 evaluated at its failing input: a config whose single line is
`mic:abc` makes `ReadConfig` raise (uncaught `std::invalid_argument` from
`std::stoi`) instead of falling back to the built-in default, contradicting
the claim that a malformed file yields the default two endpoints. -/
theorem readConfig_raises_on_malformed_line :
    readConfig (some ["mic:abc"]) = .error () ∧
    readConfig (some ["mic:abc"]) ≠ .ok defaultConfig := by
  refine ⟨rfl, ?_⟩
  rw [show readConfig (some ["mic:abc"]) =
    (.error () : Except Unit (List (String × Int))) from rfl]
  simp

end Duomic
